import Mathlib

/-!
Verification development for the XELIS Ledger hardware-wallet application
(`ledger-xelis`).  The Rust sources are shallowly embedded: 32-byte
big-endian buffers become natural numbers (or byte lists where byte order
and hashing matter), the bignum-coprocessor modular primitives
(`cx_math_addm/subm/multm/powm/modm`) become exact arithmetic on `Nat`
with explicit `% m`, and fallible Rust functions return `Except AppSW` or
`Option`.
-/

namespace LedgerXelis

/-! ## Byte-buffer helpers

Buffers are lists of bytes (`Nat` values < 256).  `beNat` interprets a
buffer as a big-endian unsigned integer, matching how the coprocessor
reads 32-byte buffers; `leNat` interprets it little-endian (the chain's
wire convention, obtained in the Rust code by `reverse()` before the
coprocessor call). -/

def beNat (l : List Nat) : Nat := l.foldl (fun a b => a * 256 + b) 0

def leNat (l : List Nat) : Nat := beNat l.reverse

def natToBeAux : Nat → Nat → List Nat → List Nat
  | 0, _, acc => acc
  | k + 1, n, acc => natToBeAux k (n / 256) (n % 256 :: acc)

/-- Fixed-width big-endian encoding of a natural number (`len` bytes). -/
def natToBe (len n : Nat) : List Nat := natToBeAux len n []

/-- `CompressedRistretto::to_le_bytes`: the internally big-endian 32-byte
buffer, reversed to the chain's little-endian wire form. -/
def toLeBytes32 (n : Nat) : List Nat := (natToBe 32 n).reverse

/-- `is_zero` from `crypto/ristretto.rs` / `crypto/scalar.rs`: all bytes
of the buffer are zero. -/
def isZeroBytes (l : List Nat) : Bool := l.all (· == 0)

/-! ## Coprocessor modular primitives (`src/cx/mod.rs`)

Modelled from the spec: the bignum coprocessor is an external collaborator
(spec §1/§2) exposing modular add/sub/mul/pow/mod on big-endian buffers;
we model them as exact modular arithmetic on the encoded values. -/

def cxAddm (a b m : Nat) : Nat := (a + b) % m

def cxSubm (a b m : Nat) : Nat := (a % m + (m - b % m)) % m

def cxMultm (a b m : Nat) : Nat := a * b % m

def cxModm (a m : Nat) : Nat := a % m

def cxPowmAux : Nat → Nat → Nat → Nat → Nat
  | 0, _, _, m => 1 % m
  | fuel + 1, b, e, m =>
    if e = 0 then 1 % m
    else
      let r := cxPowmAux fuel (b * b % m) (e / 2) m
      if e % 2 = 1 then r * b % m else r

/-- `cx_math_powm_no_throw`: modular exponentiation (fuel covers any
exponent below `2 ^ 600`, far beyond the 512-bit buffers used). -/
def cxPowm (b e m : Nat) : Nat := cxPowmAux 600 b e m

/-! ## Field constants (`crypto/ristretto.rs`), values of the big-endian
byte arrays in the source. -/

/-- `ED25519_FIELD_SIZE`: p = 2^255 - 19. -/
def P : Nat := 2 ^ 255 - 19

/-- `ED25519_POW225`: the exponent (p - 5) / 8 = 2^252 - 3. -/
def POW225 : Nat := 2 ^ 252 - 3

/-- `FE25519_SQRTM1` (a square root of -1 mod p). -/
def SQRTM1 : Nat :=
  0x2b8324804fc1df0b2b4d00993dfbd7a72f431806ad2fe478c4ee1b274a0ea0b0

/-- `ED25519_INVSQRTAMD` (1/sqrt(a-d)). -/
def INVSQRTAMD : Nat :=
  0x786c8905cfaffca216c27b91fe01d8409d2f16175a4172be99c8fdaa805d40ea

/-- `EDWARDS_D`: -121665/121666 mod p. -/
def EDWARDS_D : Nat :=
  0x52036cee2b6ffe738cc740797779e89800700a4d4141d8ab75eb4dca135978a3

/-! ## Field operations (`crypto/ristretto.rs`) -/

def fe25519_mul (f g : Nat) : Nat := cxMultm f g P

def fe25519_add (f g : Nat) : Nat := cxAddm f g P

def fe25519_sub (f g : Nat) : Nat := cxSubm f g P

def fe25519_pow22523 (z : Nat) : Nat := cxPowm z POW225 P

def fe25519_sq (f : Nat) : Nat := fe25519_mul f f

def fe25519_is_zero (f : Nat) : Bool := f == 0

/-- `fe25519_is_negative`: parity of the least-significant byte of the
big-endian buffer, i.e. of the value itself (all stored field values are
coprocessor outputs, hence reduced below p). -/
def fe25519_is_negative (f : Nat) : Bool := f % 2 == 1

/-- `fe25519_neg`: `cx_math_subm(FIELD_SIZE, f)`, i.e. (p - f) mod p. -/
def fe25519_neg (f : Nat) : Nat := cxSubm P f P

def fe25519_conditional_negate (f : Nat) (negate : Bool) : Nat :=
  if negate then fe25519_neg f else f

def fe25519_one : Nat := 1

/-! ## Extended-Edwards points (`RistrettoPoint`) -/

structure RistrettoPoint where
  x : Nat
  y : Nat
  z : Nat
  t : Nat
deriving DecidableEq, Repr

/-- `edwards_add`: extended-coordinate addition with the constant 2d. -/
def edwards_add (p q : RistrettoPoint) : RistrettoPoint :=
  let a := fe25519_mul (fe25519_sub p.y p.x) (fe25519_sub q.y q.x)
  let b := fe25519_mul (fe25519_add p.y p.x) (fe25519_add q.y q.x)
  let c := fe25519_mul (fe25519_mul p.t q.t) (fe25519_add EDWARDS_D EDWARDS_D)
  let d := fe25519_add (fe25519_mul p.z q.z) (fe25519_mul p.z q.z)
  let e := fe25519_sub b a
  let f := fe25519_sub d c
  let g := fe25519_add d c
  let h := fe25519_add b a
  ⟨fe25519_mul e f, fe25519_mul g h, fe25519_mul f g, fe25519_mul e h⟩

/-- `edwards_double`: dedicated doubling formulas from the source. -/
def edwards_double (p : RistrettoPoint) : RistrettoPoint :=
  let a := fe25519_sq p.x
  let b := fe25519_sq p.y
  let c := fe25519_add (fe25519_sq p.z) (fe25519_sq p.z)
  let h := fe25519_add a b
  let e := fe25519_sub h (fe25519_sq (fe25519_add p.x p.y))
  let g := fe25519_sub a b
  let f := fe25519_add c g
  ⟨fe25519_mul e f, fe25519_mul g h, fe25519_mul f g, fe25519_mul e h⟩

/-- The accumulator initialisation in `scalar_mult_ristretto`: the
neutral element (0, 1, 1, 0). -/
def identityPoint : RistrettoPoint := ⟨0, fe25519_one, fe25519_one, 0⟩

def scalar_mult_aux : Nat → RistrettoPoint → RistrettoPoint → Nat → RistrettoPoint
  | 0, acc, _, _ => acc
  | fuel + 1, acc, temp, k =>
    let acc := if k % 2 = 1 then edwards_add acc temp else acc
    scalar_mult_aux fuel acc (edwards_double temp) (k / 2)

/-- `scalar_mult_ristretto`: double-and-add over the 256 bits of the
scalar, LSB to MSB (bit i of the big-endian byte array is bit i of the
value). -/
def scalar_mult_ristretto (scalar : Nat) (point : RistrettoPoint) : RistrettoPoint :=
  scalar_mult_aux 256 identityPoint point scalar

/-! ## Application status words (`src/main.rs`) -/

/-- The `AppSW` status-word enumeration from `main.rs`. -/
inductive AppSW where
  | Deny
  | WrongP1P2
  | InsNotSupported
  | ClaNotSupported
  | TxDisplayFail
  | AddrDisplayFail
  | TxWrongLength
  | TxParsingFail
  | TxHashFail
  | TxSignFail
  | KeyDeriveFail
  | VersionParsingFail
  | WrongApduLength
  | MemoRequired
  | MemoInvalid
  | InvalidCommitment
  | BlindersRequired
  | InvalidCompressedRistretto
  | Ok
  | CryptoError
  | AddressError
  | ParamError
deriving DecidableEq, Repr

/-! ## Ristretto inverse square root, decompression and compression
(`crypto/ristretto.rs`) -/

/-- `ristretto255_sqrt_ratio_m1(x, u, v)`: returns the selected root and
the pair (ok, was_square) of the source. -/
def ristretto255_sqrt_ratio_m1 (u v : Nat) : Nat × Bool × Bool :=
  let v3 := fe25519_mul (fe25519_sq v) v
  let x0 := fe25519_mul (fe25519_mul (fe25519_sq v3) u) v
  let x1 := fe25519_pow22523 x0
  let x2 := fe25519_mul (fe25519_mul x1 v3) u
  let vxx := fe25519_mul (fe25519_sq x2) v
  let m_root_check := fe25519_sub vxx u
  let p_root_check := fe25519_add vxx u
  let f_root_check := fe25519_add vxx (fe25519_mul u SQRTM1)
  let has_p_root := fe25519_is_zero p_root_check
  let has_f_root := fe25519_is_zero f_root_check
  let has_m_root := fe25519_is_zero m_root_check
  let x3 := if has_p_root || has_f_root then fe25519_mul x2 SQRTM1 else x2
  let x4 := fe25519_conditional_negate x3 (fe25519_is_negative x3)
  (x4, has_m_root || has_p_root || has_f_root, has_m_root)

/-- `CompressedRistretto::decompress`.  The input is the value of the
internally big-endian 32-byte buffer; `s[0] & 0x80 ≠ 0` is exactly
`2^255 ≤ sBytes`, and after that check the `s[0] &= 0x7f` masking is the
identity. -/
def decompress (sBytes : Nat) : Except AppSW RistrettoPoint :=
  if 2 ^ 255 ≤ sBytes then .error .InvalidCompressedRistretto
  else
    let s := sBytes
    let one := fe25519_one
    let ss := fe25519_sq s
    let u1 := fe25519_sub one ss
    let u2 := fe25519_add one ss
    let u2_sqr := fe25519_sq u2
    let u1_sqr := fe25519_sq u1
    let neg_d := fe25519_neg EDWARDS_D
    let v := fe25519_sub (fe25519_mul neg_d u1_sqr) u2_sqr
    let v_u2_sqr := fe25519_mul v u2_sqr
    let (i, ok, _) := ristretto255_sqrt_ratio_m1 one v_u2_sqr
    if !ok then .error .InvalidCompressedRistretto
    else
      let dx := fe25519_mul i u2
      let dy := fe25519_mul (fe25519_mul i dx) v
      let two_s := fe25519_add s s
      let x0 := fe25519_mul two_s dx
      let x := fe25519_conditional_negate x0 (fe25519_is_negative x0)
      let y := fe25519_mul u1 dy
      let t := fe25519_mul x y
      if fe25519_is_negative t || fe25519_is_zero y then
        .error .InvalidCompressedRistretto
      else .ok ⟨x, y, one, t⟩

/-- `RistrettoPoint::compress`: returns the internally big-endian value of
the compressed encoding. -/
def compress (p : RistrettoPoint) : Except AppSW Nat :=
  let u1 := fe25519_mul (fe25519_add p.z p.y) (fe25519_sub p.z p.y)
  let u2 := fe25519_mul p.x p.y
  let u1_u2u2 := fe25519_mul u1 (fe25519_sq u2)
  let one := fe25519_one
  let (inv_sqrt, ok, _) := ristretto255_sqrt_ratio_m1 one u1_u2u2
  if !ok then .error .TxSignFail
  else
    let den1 := fe25519_mul inv_sqrt u1
    let den2 := fe25519_mul inv_sqrt u2
    let z_inv := fe25519_mul (fe25519_mul den1 den2) p.t
    let ix := fe25519_mul p.x SQRTM1
    let iy := fe25519_mul p.y SQRTM1
    let eden := fe25519_mul den1 INVSQRTAMD
    let t_z_inv := fe25519_mul p.t z_inv
    let rotate := fe25519_is_negative t_z_inv
    let x1 := if rotate then iy else p.x
    let y1 := if rotate then ix else p.y
    let den_inv := if rotate then eden else den2
    let x_z_inv := fe25519_mul x1 z_inv
    let y2 := if fe25519_is_negative x_z_inv then fe25519_neg y1 else y1
    let s0 := fe25519_mul (fe25519_sub p.z y2) den_inv
    let s := if fe25519_is_negative s0 then fe25519_neg s0 else s0
    .ok s

/-- `is_valid_compressed_ristretto` from `crypto/ristretto.rs`, on the raw
32-byte array (indices as in the source). -/
def is_valid_compressed_ristretto (bytes : List Nat) (is_le : Bool) : Bool :=
  let msb_idx := if is_le then 31 else 0
  let lsb_idx := if is_le then 0 else 31
  let msb := bytes.getD msb_idx 0
  let lsb := bytes.getD lsb_idx 0
  if msb &&& 0x80 ≠ 0 then false
  else if msb < 0x7f then true
  else
    let all_ff := ((bytes.drop 1).take 30).all (· == 0xff)
    !all_ff || decide (lsb < 0xed)

/-! ## Scalar operations (`crypto/scalar.rs`)

The crypto module root defining the byte constants `L` / `L_MINUS_2` and
the generator points is not present under `src/`; the values below are
modelled from the spec. -/

/-- Modelled from the spec: `L`, the order ℓ of the Ristretto prime-order
group (spec §3 "Scalar"); the byte constant itself lives in the missing
crypto module root. -/
def L : Nat := 2 ^ 252 + 27742317777372353535851937790883648493

/-- Modelled from the spec: `L_MINUS_2 = ℓ - 2`, the inversion exponent
(spec §4.4: `sc_invert(x)` computes `x^(ℓ-2) mod ℓ`). -/
def L_MINUS_2 : Nat := L - 2

/-- `scalar_reduce`: reduce a 32-byte big-endian value mod L. -/
def scalar_reduce (s : Nat) : Nat := cxModm s L

/-- `scalar_invert` on a 32-byte big-endian buffer: rejects the all-zero
buffer, otherwise `s^(L-2) mod L` via `cx_math_powm`. -/
def scalar_invert (scalar : List Nat) : Except AppSW Nat :=
  if isZeroBytes scalar then .error .KeyDeriveFail
  else .ok (cxPowm (beNat scalar) L_MINUS_2 L)

def scalar_add (a b : Nat) : Nat := cxAddm a b L

def scalar_multiply (a b : Nat) : Nat := cxMultm a b L

/-! ## Generator points

Modelled from the spec: the constants `XELIS_G_POINT` / `XELIS_H_POINT`
live in the missing crypto module root.  `H` is pinned down by spec §8
scenario 1: the public key of the private scalar 1 is `1⁻¹·H = H`, whose
little-endian compressed form the spec lists literally; decompressing it
with the embedded `decompress` yields the coordinates below (the same
pipeline reproduces the spec's scenario 2-4 public keys exactly).  `G` is
the native-asset base point (the standard Ristretto base point
encoding). -/

/-- Spec §8 scenario 1 public key (little-endian bytes), which equals the
chain's `H` generator compressed. -/
def XELIS_H_COMPRESSED_LE : List Nat :=
  [0x8c, 0x92, 0x40, 0xb4, 0x56, 0xa9, 0xe6, 0xdc, 0x65, 0xc3, 0x77, 0xa1,
   0x04, 0x8d, 0x74, 0x5f, 0x94, 0xa0, 0x8c, 0xdb, 0x7f, 0x44, 0xcb, 0xcd,
   0x7b, 0x46, 0xf3, 0x40, 0x48, 0x87, 0x11, 0x34]

/-- Modelled from the spec: `XELIS_H_POINT`, the blinding / public-key
generator (decompression of `XELIS_H_COMPRESSED_LE`). -/
def XELIS_H_POINT : RistrettoPoint :=
  ⟨32222932629776879811669602791249070039951768561812677975384713941242916316850,
   30828795894175983001134965706862553632588963373726840206328944991670664296646,
   1,
   7901005880329804552750922876065611769298139323020241260283712402103421048418⟩

/-- Modelled from the spec: `XELIS_G_POINT`, the native-asset base point
(decompression of the standard Ristretto base-point encoding). -/
def XELIS_G_POINT : RistrettoPoint :=
  ⟨7413488746097234319268533557746747958297143720389000677696299943083562100178,
   9771384041963202563870679428059935816164187996444183106833894008023910952347,
   1,
   11068640767834918466713275874066756361490786778694627043054626174422747718218⟩

/-! ## Schnorr signing (`crypto/signature.rs`)

SHA3-512 is provided by the secure-element SDK (an external collaborator,
spec §1), so the hash is a parameter of the embedded functions: any
function from byte lists to the 64-byte digest list. -/

/-- `reduce_mod_l_wide_le_to_be`: interpret the 64-byte digest as a
little-endian integer (the code reverses the buffer before `cx_math_modm`)
and reduce mod L; the result is the value of the returned 32-byte
big-endian buffer. -/
def reduce_mod_l_wide_le_to_be (wide_le : List Nat) : Nat :=
  cxModm (leNat wide_le) L

/-- `det_nonce_be`: deterministic nonce `wide-reduce(SHA3-512(sk ∥ msg))`,
rejected (with `TxSignFail`) when zero. -/
def det_nonce_be (sha3 : List Nat → List Nat) (sk_be msg : List Nat) :
    Except AppSW Nat :=
  let wide := sha3 (sk_be ++ msg)
  let k_be := reduce_mod_l_wide_le_to_be wide
  if k_be = 0 then .error .TxSignFail else .ok k_be

/-- `xelis_challenge_from_hash`:
`e = wide-reduce(SHA3-512(A_le ∥ msg ∥ R_le))`. -/
def xelis_challenge_from_hash (sha3 : List Nat → List Nat)
    (a_comp : Nat) (message : List Nat) (r_comp : Nat) : Nat :=
  reduce_mod_l_wide_le_to_be
    (sha3 (toLeBytes32 a_comp ++ message ++ toLeBytes32 r_comp))

/-- The steps of `schnorr_sign` after `R = k·H` has been compressed (the
code after the `compress` `map_err`/`?`): challenge, inversion, and the
final scalar equation. -/
def schnorr_finish (sha3 : List Nat → List Nat) (private_key_be : List Nat)
    (pubkey_compressed : Nat) (message_hash : List Nat) (k_be : Nat)
    (r_res : Except AppSW Nat) : Except AppSW (Nat × Nat) :=
  match r_res with
  | .error _ => .error .TxSignFail
  | .ok r_comp =>
    let e_be := xelis_challenge_from_hash sha3 pubkey_compressed
      message_hash r_comp
    match scalar_invert private_key_be with
    | .error e => .error e
    | .ok inv_sk =>
      let e_over_sk := scalar_multiply e_be inv_sk
      let s_be := scalar_add k_be e_over_sk
      .ok (s_be, e_be)

/-- `schnorr_sign` from `crypto/signature.rs`: the private key is the
32-byte big-endian buffer, the public key the (big-endian) compressed
`A = x⁻¹·H`, and the result the pair of scalar values (s, e). -/
def schnorr_sign (sha3 : List Nat → List Nat) (private_key_be : List Nat)
    (pubkey_compressed : Nat) (message_hash : List Nat) :
    Except AppSW (Nat × Nat) :=
  if isZeroBytes private_key_be then .error .TxSignFail
  else
    match det_nonce_be sha3 private_key_be message_hash with
    | .error e => .error e
    | .ok k_be =>
      if k_be = 0 then .error .TxSignFail
      else
        schnorr_finish sha3 private_key_be pubkey_compressed message_hash k_be
          (compress (scalar_mult_ristretto k_be XELIS_H_POINT))

/-- Spec-side restatement of claim C1 (refinement target), following the
claim's words: deterministic nonce `k = wide-reduce(SHA3-512(x ∥ m))`
rejecting `k = 0`; `R = k·H` compressed; challenge
`e = wide-reduce(SHA3-512(A_c ∥ m ∥ R_c))` over the chain's little-endian
encodings; `s = k + x⁻¹·e mod ℓ`; failure when `x = 0`.  The part after
the compression of `R` is split into `schnorr_claim_finish`. -/
def schnorr_claim_finish (sha3 : List Nat → List Nat) (x : List Nat)
    (a_comp : Nat) (m : List Nat) (k : Nat) (r_res : Except AppSW Nat) :
    Option (Nat × Nat) :=
  match r_res with
  | .error _ => none
  | .ok r_comp =>
    let e := leNat (sha3 (toLeBytes32 a_comp ++ m ++ toLeBytes32 r_comp)) % L
    some ((k + cxPowm (beNat x) (L - 2) L * e % L) % L, e)

def schnorr_sign_claim (sha3 : List Nat → List Nat) (x : List Nat)
    (a_comp : Nat) (m : List Nat) : Option (Nat × Nat) :=
  if beNat x = 0 then none
  else
    let k := leNat (sha3 (x ++ m)) % L
    if k = 0 then none
    else
      schnorr_claim_finish sha3 x a_comp m k
        (compress (scalar_mult_ristretto k XELIS_H_POINT))

/-! ## Pedersen commitment verification (`crypto/commitment.rs`) -/

/-- The commitment recomputation of `verify_pedersen_commitment` (lines
19-27): `C' = v·G + r·H`, compressed and exported little-endian.  The
amount scalar is the u64 amount placed in the last 8 bytes of a 32-byte
big-endian buffer, i.e. the value `amount` itself. -/
def pedersen_commit_bytes (amount blinder : Nat) : Except AppSW (List Nat) :=
  let vg := scalar_mult_ristretto amount XELIS_G_POINT
  let rh := scalar_mult_ristretto blinder XELIS_H_POINT
  let computed := edwards_add vg rh
  match compress computed with
  | .error e => .error e
  | .ok c => .ok (toLeBytes32 c)

/-- The comparison step of `verify_pedersen_commitment` (the code after
the `?` propagation): compare the recomputed bytes with the streamed
commitment. -/
def verify_pedersen_check (computed : Except AppSW (List Nat))
    (commitment : List Nat) : Except AppSW Unit :=
  match computed with
  | .error e => .error e
  | .ok computed_bytes =>
    if computed_bytes ≠ commitment then .error .InvalidCommitment else .ok ()

/-- `verify_pedersen_commitment`: recompute and compare against the
32-byte commitment taken from the transaction stream. -/
def verify_pedersen_commitment (commitment : List Nat) (amount blinder : Nat) :
    Except AppSW Unit :=
  verify_pedersen_check (pedersen_commit_bytes amount blinder) commitment

/-- `CommitmentVerifier` state: blinder scalars (values of the 32-byte
big-endian buffers), per-output verification flags, verified counter. -/
structure CommitmentVerifier where
  blinders : List Nat
  outputs_verified : List Bool
  commitments_verified : Nat
deriving DecidableEq, Repr

namespace CommitmentVerifier

/-- `init_verification(output_count)`: flags all false for the declared
output count, counter zeroed (combined here with the blinder vector the
session received, as in the live `TxContext`). -/
def init_verification (blinders : List Nat) (output_count : Nat) :
    CommitmentVerifier :=
  ⟨blinders, List.replicate output_count false, 0⟩

/-- The post-verification bookkeeping of `verify_output` (the code after
the `?` propagation): on success, mark the output verified and bump the
counter. -/
def verify_output_result (res : Except AppSW Unit) (v : CommitmentVerifier)
    (idx : Nat) : Except AppSW CommitmentVerifier :=
  match res with
  | .error e => .error e
  | .ok _ =>
    .ok { v with
          outputs_verified := v.outputs_verified.set idx true,
          commitments_verified := v.commitments_verified + 1 }

/-- `CommitmentVerifier::verify_output`. -/
def verify_output (v : CommitmentVerifier) (idx : Nat)
    (commitment : List Nat) (amount : Nat) : Except AppSW CommitmentVerifier :=
  if v.outputs_verified.length ≤ idx ∨ v.blinders.length ≤ idx then
    .error .TxParsingFail
  else
    verify_output_result
      (verify_pedersen_commitment commitment amount (v.blinders.getD idx 0))
      v idx

/-- `CommitmentVerifier::all_verified`. -/
def all_verified (v : CommitmentVerifier) : Bool :=
  v.outputs_verified.all (fun b => b)

/-- `CommitmentVerifier::verified_count`. -/
def verified_count (v : CommitmentVerifier) : Nat := v.commitments_verified

end CommitmentVerifier

/-! ## The signing session's commitment events (`handlers/sign_tx`)

During the streamed body, each completed output commitment is passed to
`verify_output` with its index and previewed amount; on the final chunk
the handler refuses to sign unless `all_verified` holds and the verified
count equals the preview's output count
(`handlers/sign_tx/sign_tx.rs` lines 126-146). -/

/-- One commitment event: (output index, commitment bytes, amount). -/
def runVerifies (v : CommitmentVerifier) :
    List (Nat × List Nat × Nat) → Except AppSW CommitmentVerifier
  | [] => .ok v
  | (idx, c, amount) :: rest =>
    match v.verify_output idx c amount with
    | .error e => .error e
    | .ok v1 => runVerifies v1 rest

/-- The final-chunk gate of `handler_sign_tx` (lines 133-141): for
TRANSFER/BURN previews with a live verifier, refuse with
`InvalidCommitment` unless every flag is set and the count matches. -/
def sign_final_gate (tx_type : Nat) (verifier : Option CommitmentVerifier)
    (outs_len : Nat) : Except AppSW Unit :=
  if tx_type = 0 ∨ tx_type = 1 then
    match verifier with
    | some v =>
      if ¬ (v.all_verified = true) ∨ v.verified_count ≠ outs_len then
        .error .InvalidCommitment
      else .ok ()
    | none => .ok ()
  else .ok ()

/-- Whether the session, having streamed the given commitment events,
reaches signature emission on the final chunk: the parse/verify fold must
succeed and the final gate must pass. -/
def session_emits_signature (tx_type outs_len : Nat) (blinders : List Nat)
    (n : Nat) (events : List (Nat × List Nat × Nat)) : Bool :=
  match runVerifies (CommitmentVerifier.init_verification blinders n) events with
  | .error _ => false
  | .ok v =>
    match sign_final_gate tx_type (some v) outs_len with
    | .error _ => false
    | .ok _ => true

/-! ## Preview TLV parsing (`src/xlb.rs`) -/

/-- TLV tags from `xlb.rs`. -/
def TAG_TX_TYPE : Nat := 0x01
def TAG_FEE : Nat := 0x02
def TAG_NONCE : Nat := 0x03
def TAG_ASSET_TABLE : Nat := 0x04
def TAG_OUT_COUNT : Nat := 0x10
def TAG_OUT_ITEM : Nat := 0x20
def TAG_BURN : Nat := 0x30

def TX_BURN : Nat := 0
def TX_TRANSFER : Nat := 1

/-- `read_leb128` body: `val` is a u64, so the shifted-in byte wraps mod
2^64; a continuation byte that pushes `shift` to 64 or beyond is a parse
failure, as is running off the end of the buffer. -/
def read_leb128_aux : Nat → List Nat → Nat → Nat → Nat →
    Except AppSW (Nat × Nat)
  | 0, _, _, _, _ => .error .TxParsingFail
  | fuel + 1, buf, off, val, shift =>
    if buf.length ≤ off then .error .TxParsingFail
    else
      let b := buf.getD off 0
      let val1 := val ||| ((b &&& 0x7F) <<< shift) % 2 ^ 64
      if b &&& 0x80 = 0 then .ok (val1, off + 1)
      else if 64 ≤ shift + 7 then .error .TxParsingFail
      else read_leb128_aux fuel buf (off + 1) val1 (shift + 7)

/-- `read_leb128(buf, off)`: LEB128 u64 at `off`, returning the value and
the offset just past the encoding. -/
def read_leb128 (buf : List Nat) (off : Nat) : Except AppSW (Nat × Nat) :=
  read_leb128_aux (buf.length + 1) buf off 0 0

/-- `MemoOut` (one parsed transfer output of the preview workspace). -/
structure MemoOut where
  asset_index : Nat
  dest : List Nat
  amount : Nat
  extra_len : Nat
  preview : List Nat
deriving DecidableEq, Repr

/-- `MemoBurn`. -/
structure MemoBurn where
  asset_index : Nat
  amount : Nat
deriving DecidableEq, Repr

/-- `MemoPreview` (tx_type, fee, nonce — the workspace holds the rest). -/
structure MemoPreview where
  tx_type : Nat
  fee : Nat
  nonce : Nat
deriving DecidableEq, Repr

/-- `MemoWorkspace`: the process-wide preview workspace (asset table,
outputs, burn descriptor), threaded explicitly through the embedding as
spec §9 prescribes for a rewrite. -/
structure MemoWorkspace where
  asset_table : List (List Nat)
  outs : List MemoOut
  burn : Option MemoBurn
deriving DecidableEq, Repr

def MemoWorkspace.empty : MemoWorkspace := ⟨[], [], none⟩

/-- Intermediate parser accumulator for `parse_memo_tlv`. -/
structure TlvAcc where
  tx_type : Nat
  fee : Nat
  nonce : Nat
  expected_outs : Option Nat
  ws : MemoWorkspace
deriving Repr

/-- One TLV record dispatch of `parse_memo_tlv` (the `match tag` body),
acting on the record value `val`. -/
def parse_memo_record (acc : TlvAcc) (tag : Nat) (val : List Nat) :
    Except AppSW TlvAcc :=
  if tag = TAG_TX_TYPE then
    if val.length ≠ 1 then .error .MemoInvalid
    else .ok { acc with tx_type := val.getD 0 0 }
  else if tag = TAG_FEE then
    if val.length ≠ 8 then .error .MemoInvalid
    else .ok { acc with fee := leNat val }
  else if tag = TAG_NONCE then
    if val.length ≠ 8 then .error .MemoInvalid
    else .ok { acc with nonce := leNat val }
  else if tag = TAG_ASSET_TABLE then
    match read_leb128 val 0 with
    | .error e => .error e
    | .ok (asset_count, pn) =>
      if val.length < pn + asset_count * 32 then .error .MemoInvalid
      else
        let assets := (List.range asset_count).map
          (fun i => (val.drop (pn + 32 * i)).take 32)
        let table := acc.ws.asset_table ++ assets
        if 255 < table.length then .error .MemoInvalid
        else .ok { acc with ws := { acc.ws with asset_table := table } }
  else if tag = TAG_OUT_ITEM then
    if val.length < 1 + 32 + 8 then .error .MemoInvalid
    else
      let asset_index := val.getD 0 0
      if 0 < asset_index ∧ acc.ws.asset_table.length < asset_index then
        .error .MemoInvalid
      else
        let dest := (val.drop 1).take 32
        let amount := leNat ((val.drop 33).take 8)
        match read_leb128 val 41 with
        | .error e => .error e
        | .ok (extra_len, pn1) =>
          match read_leb128 val pn1 with
          | .error e => .error e
          | .ok (preview_len, pn2) =>
            if val.length < pn2 + preview_len then .error .MemoInvalid
            else
              let preview := (val.drop pn2).take preview_len
              let out : MemoOut := ⟨asset_index, dest, amount, extra_len, preview⟩
              .ok { acc with ws := { acc.ws with outs := acc.ws.outs ++ [out] } }
  else if tag = TAG_BURN then
    if val.length < 1 + 8 then .error .MemoInvalid
    else
      let asset_index := val.getD 0 0
      if 0 < asset_index ∧ acc.ws.asset_table.length < asset_index then
        .error .MemoInvalid
      else
        let amount := leNat ((val.drop 1).take 8)
        match read_leb128 val 9 with
        | .error e => .error e
        | .ok (pv_len, pn) =>
          if val.length < pn + pv_len then .error .MemoInvalid
          else .ok { acc with ws :=
            { acc.ws with burn := some ⟨asset_index, amount⟩ } }
  else .ok acc

/-- The `while off < memo.len()` loop of `parse_memo_tlv`. -/
def parse_memo_loop : Nat → List Nat → Nat → TlvAcc → Except AppSW TlvAcc
  | 0, _, _, _ => .error .TxParsingFail
  | fuel + 1, memo, off, acc =>
    if memo.length ≤ off then .ok acc
    else
      let tag := memo.getD off 0
      let off1 := off + 1
      if tag = TAG_OUT_COUNT then
        match read_leb128 memo off1 with
        | .error e => .error e
        | .ok (n, noff) =>
          parse_memo_loop fuel memo noff { acc with expected_outs := some n }
      else
        match read_leb128 memo off1 with
        | .error e => .error e
        | .ok (len, noff) =>
          if memo.length < noff + len then .error .TxParsingFail
          else
            let val := (memo.drop noff).take len
            match parse_memo_record acc tag val with
            | .error e => .error e
            | .ok acc1 => parse_memo_loop fuel memo (noff + len) acc1

/-- `parse_memo_tlv`: clears the workspace, folds over the records, checks
the declared output count, and returns the preview together with the
(global, here threaded) workspace. -/
def parse_memo_tlv (memo : List Nat) : Except AppSW (MemoPreview × MemoWorkspace) :=
  match parse_memo_loop (memo.length + 1) memo 0 ⟨0, 0, 0, none, .empty⟩ with
  | .error e => .error e
  | .ok acc =>
    match acc.expected_outs with
    | some n =>
      if acc.ws.outs.length ≠ n then .error .MemoInvalid
      else .ok (⟨acc.tx_type, acc.fee, acc.nonce⟩, acc.ws)
    | none => .ok (⟨acc.tx_type, acc.fee, acc.nonce⟩, acc.ws)

/-! ## Streaming transaction parsing (`handlers/sign_tx/tx_parser.rs`) -/

/-- `PartialType`: which in-flight record the scratch buffer holds. -/
inductive PartialType where
  | pnone
  | extraLength
  | extraData (total : Nat)
  | commitment
deriving DecidableEq, Repr

/-- `TxStreamParser` state.  `partial_buffer` holds exactly the
`partial_len` accumulated bytes of the 256-byte scratch buffer; during
`ExtraData` only the count `partial_len` is meaningful (the source never
writes the skipped bytes). -/
structure TxStreamParser where
  bytes_seen : Nat
  tx_version : Nat
  source_pubkey : List Nat
  in_transfers : Bool
  transfer_count : Nat
  transfers_parsed : Nat
  pending_tail_skip : Nat
  partial_buffer : List Nat
  partial_len : Nat
  partial_type : PartialType
  burn_parsed : Bool
deriving DecidableEq, Repr

namespace TxStreamParser

/-- `TxStreamParser::new` / `reset`. -/
def new : TxStreamParser :=
  ⟨0, 0, List.replicate 32 0, false, 0, 0, 0, [], 0, .pnone, false⟩

end TxStreamParser

/-- `read_varint` body; `value` is modelled as an unbounded natural (only
the accept/reject behaviour and the sub-2^32 values reached in practice
are relied upon). -/
def read_varint_aux : List Nat → Nat → Nat → Nat → Except AppSW (Nat × Nat)
  | [], _, _, _ => .error .TxParsingFail
  | b :: rest, value, shift, consumed =>
    if 9 ≤ consumed then .error .TxParsingFail
    else
      let value1 := value ||| ((b &&& 0x7F) <<< shift)
      if b &&& 0x80 = 0 then .ok (value1, consumed + 1)
      else read_varint_aux rest value1 (shift + 7) (consumed + 1)

/-- `read_varint(data)`: the varint value and the bytes consumed; fails on
any encoding longer than 9 bytes or an unterminated buffer. -/
def read_varint (data : List Nat) : Except AppSW (Nat × Nat) :=
  read_varint_aux data 0 0 0

/-- `transfer_tail_len_after_commit`: bytes to skip after each output
commitment (sender/receiver handles plus the version-dependent proof). -/
def transfer_tail_len_after_commit (tx_version : Nat) : Nat :=
  32 + 32 + (if 1 ≤ tx_version then 160 else 128)

/-- `TxStreamParser::parse_burn`: accumulate the 40-byte burn payload
(asset 32 ∥ amount 8), then check the **big-endian** amount against the
preview's burn descriptor. -/
def parse_burn (st : TxStreamParser) (data : List Nat)
    (memo_burn : Option MemoBurn) : Except AppSW (TxStreamParser × Nat) :=
  let take := min (40 - st.partial_len) data.length
  let buf1 := st.partial_buffer ++ data.take take
  let len1 := st.partial_len + take
  if len1 = 40 then
    let amount := beNat ((buf1.drop 32).take 8)
    match memo_burn with
    | some burn =>
      if amount ≠ burn.amount then .error .TxParsingFail
      else
        .ok ({ st with partial_buffer := [], partial_len := 0,
                       burn_parsed := true }, take)
    | none => .error .TxParsingFail
  else .ok ({ st with partial_buffer := buf1, partial_len := len1 }, take)

/-- The inner `for` loop of the `ExtraLength` arm: push continuation
bytes (capped at 9) until a terminator, then parse the collected varint.
Returns the new partial buffer, the bytes consumed, and the parsed extra
length when the varint completed. -/
def extra_length_loop : List Nat → List Nat →
    Except AppSW (List Nat × Nat × Option Nat)
  | [], buf => .ok (buf, 0, none)
  | b :: rest, buf =>
    if 9 ≤ buf.length then .error .TxParsingFail
    else
      let buf1 := buf ++ [b]
      if b &&& 0x80 = 0 then
        match read_varint buf1 with
        | .error e => .error e
        | .ok (extra_len, _) => .ok ([], 1, some extra_len)
      else
        match extra_length_loop rest buf1 with
        | .error e => .error e
        | .ok (buf2, c, r) => .ok (buf2, c + 1, r)

/-- The `loop` of `extract_commitment_from_transfer` (at most four arm
visits per call; the fuel is never exhausted on the states reachable from
the handler). -/
def extract_loop : Nat → TxStreamParser → List Nat → Nat → Nat →
    Except AppSW (Option (List Nat) × Nat × TxStreamParser)
  | 0, st, _, _, consumed => .ok (none, consumed, st)
  | fuel + 1, st, data, off, consumed =>
    match st.partial_type with
    | .pnone =>
      let needed := 65 - st.partial_len
      let available := min needed (data.length - off)
      let buf1 := st.partial_buffer ++ ((data.drop off).take available)
      let len1 := st.partial_len + available
      let off1 := off + available
      let consumed1 := consumed + available
      if len1 < 65 then
        .ok (none, consumed1,
          { st with partial_buffer := buf1, partial_len := len1 })
      else
        let has_extra := buf1.getD 64 0
        let st1 := { st with partial_buffer := [], partial_len := 0,
                             partial_type := if has_extra = 1 then .extraLength else .commitment }
        if data.length ≤ off1 then .ok (none, consumed1, st1)
        else extract_loop fuel st1 data off1 consumed1
    | .extraLength =>
      match extra_length_loop (data.drop off) st.partial_buffer with
      | .error e => .error e
      | .ok (buf2, c, r) =>
        let off1 := off + c
        let consumed1 := consumed + c
        match r with
        | none =>
          .ok (none, consumed1,
            { st with partial_buffer := buf2, partial_len := buf2.length })
        | some extra_len =>
          let st1 := { st with partial_buffer := [], partial_len := 0,
                               partial_type :=
                                 if 0 < extra_len then .extraData extra_len else .commitment }
          if data.length ≤ off1 then .ok (none, consumed1, st1)
          else extract_loop fuel st1 data off1 consumed1
    | .extraData total =>
      let remaining := total - st.partial_len
      let available := min remaining (data.length - off)
      let len1 := st.partial_len + available
      let off1 := off + available
      let consumed1 := consumed + available
      if total ≤ len1 then
        let st1 := { st with partial_len := 0,
                             partial_type := .commitment }
        if data.length ≤ off1 then .ok (none, consumed1, st1)
        else extract_loop fuel st1 data off1 consumed1
      else
        .ok (none, consumed1, { st with partial_len := len1 })
    | .commitment =>
      let needed := 32 - st.partial_len
      let available := min needed (data.length - off)
      let buf1 := st.partial_buffer ++ ((data.drop off).take available)
      let len1 := st.partial_len + available
      let off1 := off + available
      let consumed1 := consumed + available
      if 32 ≤ len1 then
        let commitment := buf1.take 32
        let tail_len := transfer_tail_len_after_commit st.tx_version
        let avail := data.length - off1
        let skip_now := min tail_len avail
        let consumed2 := consumed1 + skip_now
        let st1 := { st with partial_buffer := [], partial_len := 0,
                             partial_type := .pnone,
                             pending_tail_skip := tail_len - skip_now,
                             transfers_parsed := st.transfers_parsed + 1 }
        .ok (some commitment, consumed2, st1)
      else
        .ok (none, consumed1,
          { st with partial_buffer := buf1, partial_len := len1 })

/-- `TxStreamParser::extract_commitment_from_transfer`: returns the
completed commitment (if any), the bytes consumed from `data`, and the
updated parser state.  A pending tail skip is served first and the call
returns immediately. -/
def extract_commitment_from_transfer (st : TxStreamParser) (data : List Nat) :
    Except AppSW (Option (List Nat) × Nat × TxStreamParser) :=
  if 0 < st.pending_tail_skip then
    let take := min st.pending_tail_skip data.length
    .ok (none, take, { st with pending_tail_skip := st.pending_tail_skip - take })
  else extract_loop 4 st data 0 0

/-! ## Session context (`handlers/sign_tx/tx_context.rs`) and the memo
handler (`handlers/sign_tx/memo.rs`)

The rolling SHA3 hasher object is omitted from the state (it is an opaque
SDK handle recreated on reset); the preview workspace is threaded through
the context as `memo_ws`. -/

def MAX_MEMO_SIZE : Nat := 3 * 1024 + 512

/-- `TxContext` (data fields). -/
structure TxContext where
  tx_hash : Option (List Nat)
  total_size : Nat
  chunk_count : Nat
  memo : Option MemoPreview
  memo_ws : MemoWorkspace
  memo_buffer : List Nat
  memo_chunk_count : Nat
  preview_approved : Bool
  sign_completed : Bool
  sign_succeeded : Bool
  blinders : List Nat
  commitment_verifier : Option CommitmentVerifier
  parse_state : TxStreamParser
deriving Repr

namespace TxContext

/-- `TxContext::new`: the freshly-initialised session state. -/
def new : TxContext :=
  ⟨none, 0, 0, none, .empty, [], 0, false, false, false, [], none, .new⟩

/-- `TxContext::reset`: `*self = Self::new()`. -/
def reset (_ctx : TxContext) : TxContext := new

end TxContext

/-- The expected chunk index of `load_memo` (memo.rs lines 25-29). -/
def memo_expected_chunk (memo_chunk_count : Nat) : Nat :=
  if memo_chunk_count = 0 then 0 else (memo_chunk_count - 1) % 255 + 1

/-- The expected chunk index of `handler_sign_tx` for body chunks
(sign_tx.rs line 107): `((chunk_count % 255) as u8).saturating_add(1).max(1)`. -/
def sign_expected_chunk (chunk_count : Nat) : Nat :=
  max (min (chunk_count % 255 + 1) 255) 1

/-- The chunk dispatch prefix of `handler_sign_tx` (sign_tx.rs lines
75-111): the empty-data check, the chunk-0 session re-initialisation
branch (lines 80-103: requires an approved preview, resets the signing
state, reads the BIP32 path from the data — `Bip32Path::try_from` fails
unless `data[0] * 4 = data.len() - 1` — and demands blinders when the
approved memo is a transfer or burn), and for non-zero chunks the
chunk-sequence validation (lines 106-111).  Everything later (hashing,
parsing, finalisation) runs only after this prefix succeeds. -/
def sign_tx_validate_chunk (ctx : TxContext) (chunk : Nat) (data : List Nat) :
    Except AppSW TxContext :=
  if data.length = 0 then .error .TxParsingFail
  else if chunk = 0 then
    if ctx.preview_approved = false then .error .MemoRequired
    else
      let ctx := { ctx with sign_completed := false, sign_succeeded := false,
                            tx_hash := none, total_size := 0, chunk_count := 0,
                            parse_state := .new }
      if data.headD 0 * 4 ≠ data.length - 1 then .error .WrongApduLength
      else
        match ctx.memo with
        | some memo =>
          if (memo.tx_type = TX_TRANSFER ∨ memo.tx_type = TX_BURN)
              ∧ ctx.blinders = [] then .error .BlindersRequired
          else .ok ctx
        | none => .ok ctx
  else if chunk ≠ sign_expected_chunk ctx.chunk_count then .error .TxParsingFail
  else .ok { ctx with chunk_count := ctx.chunk_count + 1 }

/-- `load_memo` from `memo.rs`; the UI adapter is abstracted to the
boolean approved/rejected contract `ui_approves`, and spec-modelled
`init_commitment_verifier(output_count)` initialises the per-output flag
vector for the declared output count. -/
def load_memo (ctx : TxContext) (chunk : Nat) (more : Bool)
    (data : List Nat) (ui_approves : Bool) : Except AppSW TxContext :=
  let ctx :=
    if chunk = 0 then
      { ctx with memo_buffer := [], memo_chunk_count := 0, memo := none,
                 preview_approved := false }
    else ctx
  if chunk ≠ memo_expected_chunk ctx.memo_chunk_count then
    .error .TxParsingFail
  else
    let ctx := { ctx with memo_chunk_count := ctx.memo_chunk_count + 1 }
    if MAX_MEMO_SIZE < ctx.memo_buffer.length + data.length then
      .error .TxWrongLength
    else
      let ctx := { ctx with memo_buffer := ctx.memo_buffer ++ data }
      if more then .ok ctx
      else
        match parse_memo_tlv ctx.memo_buffer with
        | .error e => .error e
        | .ok (preview, ws) =>
          let ctx := { ctx with memo_buffer := [] }
          if ui_approves then
            let ctx := { ctx with memo := some preview, memo_ws := ws,
                                  preview_approved := true }
            let output_count :=
              if preview.tx_type = TX_TRANSFER ∨ preview.tx_type = TX_BURN then
                ws.outs.length
              else 0
            if 0 < output_count then
              let v := CommitmentVerifier.init_verification ctx.blinders
                output_count
              .ok { ctx with commitment_verifier := some v }
            else .ok ctx
          else .error .Deny

/-! ## Main-loop outcome handling (`src/main.rs`) -/

/-- The `Instruction` enumeration of `main.rs`. -/
inductive Instruction where
  | getVersion
  | getAppName
  | getPubkey (display : Bool)
  | signTx (chunk : Nat) (more : Bool)
  | loadMemo (chunk : Nat) (more : Bool)
  | sendBlinders
deriving DecidableEq, Repr

/-- Whether `show_status_and_home_if_needed` calls `ctx.reset()` for the
given instruction, returned status, and signing flags (the `reset` flag
of the selected `Action`). -/
def reset_after_outcome (ins : Instruction) (status : AppSW)
    (sign_completed : Bool) : Bool :=
  match ins with
  | .loadMemo _ more =>
    if more then false
    else
      match status with
      | .Ok => false
      | .Deny => true
      | _ => false
  | .sendBlinders => if status = .Ok then false else true
  | .signTx _ _ =>
    if sign_completed then true
    else if status ≠ .Ok then true
    else false
  | .getPubkey display =>
    if display ∧ (status = .Ok ∨ status = .Deny) then false else false
  | _ => false

/-! ## Helper lemmas -/

set_option maxRecDepth 100000

theorem beNat_nil : beNat [] = 0 := rfl

theorem beNat_foldl (l : List Nat) (a : Nat) :
    l.foldl (fun a b => a * 256 + b) a = a * 256 ^ l.length + beNat l := by
  induction l generalizing a with
  | nil => simp [beNat]
  | cons b t ih =>
    have hb : beNat (b :: t) = List.foldl (fun a b => a * 256 + b) b t := by
      simp [beNat]
    simp only [List.foldl_cons, List.length_cons]
    rw [ih (a * 256 + b), hb, ih b]
    ring

theorem beNat_cons (b : Nat) (t : List Nat) :
    beNat (b :: t) = b * 256 ^ t.length + beNat t := by
  have hb : beNat (b :: t) = List.foldl (fun a b => a * 256 + b) b t := by
    simp [beNat]
  rw [hb, beNat_foldl t b]

theorem beNat_append_singleton (l : List Nat) (x : Nat) :
    beNat (l ++ [x]) = beNat l * 256 + x := by
  induction l with
  | nil => simp [beNat]
  | cons b t ih =>
    rw [List.cons_append, beNat_cons, beNat_cons, ih]
    simp [List.length_append]
    ring

theorem beNat_lt (l : List Nat) (h : ∀ b ∈ l, b < 256) :
    beNat l < 256 ^ l.length := by
  induction l with
  | nil => simp [beNat]
  | cons b t ih =>
    rw [beNat_cons]
    have hb : b < 256 := h b (List.mem_cons_self b t)
    have ht : beNat t < 256 ^ t.length := ih (fun x hx => h x (List.mem_cons_of_mem b hx))
    have hb1 : b + 1 ≤ 256 := hb
    calc b * 256 ^ t.length + beNat t
        < b * 256 ^ t.length + 256 ^ t.length := by omega
      _ = (b + 1) * 256 ^ t.length := by ring
      _ ≤ 256 * 256 ^ t.length := Nat.mul_le_mul_right _ hb1
      _ = 256 ^ (t.length + 1) := by ring
      _ = 256 ^ (b :: t).length := by simp

theorem beNat_eq_zero_iff (l : List Nat) :
    beNat l = 0 ↔ isZeroBytes l = true := by
  induction l with
  | nil => simp [beNat, isZeroBytes]
  | cons b t ih =>
    rw [beNat_cons]
    simp only [isZeroBytes, List.all_cons, Bool.and_eq_true, beq_iff_eq]
    constructor
    · intro h
      have hb : b = 0 := by
        have := Nat.pos_pow_of_pos t.length (by norm_num : 0 < 256)
        by_contra hb
        have : 1 ≤ b := Nat.one_le_iff_ne_zero.mpr hb
        nlinarith [Nat.le_add_right (b * 256 ^ t.length) (beNat t)]
      refine ⟨hb, ?_⟩
      rw [← isZeroBytes, ← ih]
      omega
    · rintro ⟨hb, ht⟩
      rw [hb]
      simpa using ih.mpr ht

theorem all_ff_iff_beNat (l : List Nat) (h : ∀ b ∈ l, b < 256) :
    l.all (· == 0xff) = true ↔ beNat l = 256 ^ l.length - 1 := by
  induction l with
  | nil => simp [beNat]
  | cons b t ih =>
    have hb : b < 256 := h b (List.mem_cons_self b t)
    have ht := ih (fun x hx => h x (List.mem_cons_of_mem b hx))
    have htlt : beNat t < 256 ^ t.length :=
      beNat_lt t (fun x hx => h x (List.mem_cons_of_mem b hx))
    have hpow : 1 ≤ 256 ^ t.length := Nat.one_le_iff_ne_zero.mpr (by positivity)
    rw [beNat_cons]
    simp only [List.all_cons, Bool.and_eq_true, beq_iff_eq, List.length_cons]
    rw [ht]
    have h1 : (256 : Nat) ^ (t.length + 1) = 256 * 256 ^ t.length := by ring
    rw [h1]
    constructor
    · rintro ⟨hb255, htff⟩
      subst hb255
      rw [htff]
      have h2 : (255 : Nat) * 256 ^ t.length = 255 * 256 ^ t.length := rfl
      omega
    · intro hsum
      have hble : b ≤ 255 := by omega
      have hkey : b * 256 ^ t.length ≤ 255 * 256 ^ t.length :=
        Nat.mul_le_mul_right _ hble
      have hb255 : b = 255 := by
        by_contra hne
        have hble2 : b ≤ 254 := by omega
        have : b * 256 ^ t.length ≤ 254 * 256 ^ t.length :=
          Nat.mul_le_mul_right _ hble2
        omega
      subst hb255
      exact ⟨rfl, by omega⟩

/-- Splitting a 32-byte buffer into its first byte, 30 middle bytes and
last byte. -/
theorem exists_msb_mid_lsb (l : List Nat) (h : l.length = 32) :
    ∃ a m b, l = a :: m ++ [b] ∧ m.length = 30 := by
  match l, h with
  | a :: t, h =>
    have ht : t.length = 31 := by simpa using h
    have htne : t ≠ [] := by
      intro he
      rw [he] at ht
      simp at ht
    refine ⟨a, t.dropLast, t.getLast htne, ?_, ?_⟩
    · rw [List.cons_append, List.dropLast_append_getLast htne]
    · simp [List.length_dropLast, ht]

theorem runVerifies_append (v : CommitmentVerifier)
    (pre rest : List (Nat × List Nat × Nat)) :
    runVerifies v (pre ++ rest) =
      match runVerifies v pre with
      | .error e => .error e
      | .ok v1 => runVerifies v1 rest := by
  induction pre generalizing v with
  | nil => simp [runVerifies]
  | cons ev tl ih =>
    obtain ⟨idx, c, amount⟩ := ev
    simp only [List.cons_append, runVerifies]
    cases v.verify_output idx c amount with
    | error e => simp
    | ok v1 => simpa using ih v1

/-! ## Claim C3 -/

/-- C3: the compress/decompress round trip fails at the all-zero 32-byte
encoding — the canonical, valid Ristretto encoding of the identity.
`decompress` accepts it (returning the neutral element), but `compress`
of that point fails with `TxSignFail` (its inverse-square-root of 0
reports no root), so `compress (decompress c) = c` does not hold on all
accepted encodings.  Moreover `decompress` also accepts the non-canonical
encoding of the field value p (= 0 mod p), which decompresses to the same
point, so the round trip could not return both encodings in any case. -/
theorem C3_identity_roundtrip_fails :
    decompress 0 = .ok identityPoint
    ∧ compress identityPoint = .error .TxSignFail
    ∧ decompress P = .ok identityPoint :=
  ⟨rfl, rfl, rfl⟩

/-! ## Claim C6 -/

/-- C6 counterexample: a burn body whose 8 amount bytes are
`01 00 00 00 00 00 00 00` — little-endian value 1, matching the preview's
burn amount 1 — is nonetheless rejected, because `parse_burn` interprets
the amount big-endian (`u64::from_be_bytes`). -/
theorem C6_counterexample :
    parse_burn .new (List.replicate 32 0 ++ [1, 0, 0, 0, 0, 0, 0, 0])
        (some ⟨0, 1⟩) = .error .TxParsingFail
    ∧ leNat [1, 0, 0, 0, 0, 0, 0, 0] = 1 :=
  ⟨rfl, rfl⟩

/-- C6 amended: the burn parser accumulates the 40-byte payload (32-byte
asset id followed by the 8-byte amount), interprets the amount
**big-endian**, and fails exactly when the amount differs from the
preview's burn descriptor or no burn descriptor exists; a short fragment
is accumulated without any check. -/
theorem C6_burn_amount_is_big_endian (payload rest data : List Nat)
    (st : TxStreamParser) (mb : Option MemoBurn)
    (hlen : payload.length = 40)
    (hst : st.partial_len = st.partial_buffer.length)
    (hshort : st.partial_len + data.length < 40) :
    parse_burn TxStreamParser.new (payload ++ rest) mb =
      (match mb with
       | none => .error .TxParsingFail
       | some burn =>
         if beNat ((payload.drop 32).take 8) = burn.amount then
           .ok ({ TxStreamParser.new with burn_parsed := true }, 40)
         else .error .TxParsingFail)
    ∧ parse_burn st data mb =
        .ok ({ st with partial_buffer := st.partial_buffer ++ data,
                       partial_len := st.partial_len + data.length },
             data.length) := by
  constructor
  · have htake : min (40 - TxStreamParser.new.partial_len)
        (payload ++ rest).length = 40 := by
      simp [TxStreamParser.new, List.length_append, hlen]
    have hbuf : (payload ++ rest).take 40 = payload := by
      rw [List.take_append_eq_append_take]
      simp [hlen]
    simp only [parse_burn, htake, hbuf]
    have hnew : TxStreamParser.new.partial_buffer = [] := rfl
    have hnewlen : TxStreamParser.new.partial_len = 0 := rfl
    rw [hnew, hnewlen]
    simp only [List.nil_append, Nat.zero_add, hlen, if_pos rfl]
    cases mb with
    | none => rfl
    | some burn =>
      by_cases hamt : beNat ((payload.drop 32).take 8) = burn.amount
      · simp [hamt]
      · simp [hamt]
  · have htake : min (40 - st.partial_len) data.length = data.length := by
      omega
    have hne : ¬ (st.partial_len + data.length = 40) := by omega
    simp only [parse_burn, htake, List.take_length, hne, if_false]

/-! ## Claim C7 -/

/-- C7 counterexample: with transaction version 0, a completed 32-byte
commitment followed by ample data consumes 32 + 192 = 224 bytes, not the
32 + 128 = 160 the claim's "skip exactly 128 bytes" would give: the tail
is 32 + 32 + 128 (two 32-byte handles plus the 128-byte proof). -/
theorem C7_counterexample :
    extract_commitment_from_transfer
        { TxStreamParser.new with partial_type := .commitment }
        (List.replicate 300 7)
      = .ok (some (List.replicate 32 7), 224,
             { TxStreamParser.new with transfers_parsed := 1 })
    ∧ (224 : Nat) ≠ 32 + 128 :=
  ⟨rfl, by decide⟩

/-- C7 amended: after each output commitment the parser skips exactly
`32 + 32 + 128` bytes when `tx_version = 0` and `32 + 32 + 160` bytes
otherwise (handles plus version-dependent proof); the skip is served
immediately from the available bytes, the remainder deferred through
`pending_tail_skip`, which a later call consumes before anything else. -/
theorem C7_tail_skip (v : Nat) (st : TxStreamParser) (data : List Nat)
    (hty : st.partial_type = .commitment)
    (hpend : st.pending_tail_skip = 0)
    (hlen : st.partial_len = st.partial_buffer.length)
    (hlt : st.partial_len ≤ 32)
    (hdata : 32 - st.partial_len ≤ data.length)
    (st2 : TxStreamParser) (data2 : List Nat)
    (hpend2 : 0 < st2.pending_tail_skip) :
    transfer_tail_len_after_commit v = 32 + 32 + (if v = 0 then 128 else 160)
    ∧ extract_commitment_from_transfer st data =
        (let need := 32 - st.partial_len
         let tail := transfer_tail_len_after_commit st.tx_version
         let skip_now := min tail (data.length - need)
         .ok (some ((st.partial_buffer ++ data.take need).take 32),
              need + skip_now,
              { st with partial_buffer := [], partial_len := 0,
                        partial_type := .pnone,
                        pending_tail_skip := tail - skip_now,
                        transfers_parsed := st.transfers_parsed + 1 }))
    ∧ extract_commitment_from_transfer st2 data2 =
        .ok (none, min st2.pending_tail_skip data2.length,
             { st2 with pending_tail_skip :=
                st2.pending_tail_skip - min st2.pending_tail_skip data2.length }) := by
  refine ⟨?_, ?_, ?_⟩
  · unfold transfer_tail_len_after_commit
    rcases Nat.eq_zero_or_pos v with hv | hv
    · simp [hv]
    · have h1 : 1 ≤ v := hv
      have hne : ¬ (v = 0) := by omega
      simp [h1, hne]
  · have hnp : ¬ (0 < st.pending_tail_skip) := by omega
    unfold extract_commitment_from_transfer
    rw [if_neg hnp]
    unfold extract_loop
    rw [hty]
    simp only
    have hava : min (32 - st.partial_len) (data.length - 0) = 32 - st.partial_len := by
      omega
    rw [hava]
    have h32 : 32 ≤ st.partial_len + (32 - st.partial_len) := by omega
    rw [if_pos h32]
    simp only [Nat.zero_add]
    rfl
  · unfold extract_commitment_from_transfer
    rw [if_pos hpend2]

/-! ## Claim C8 -/

/-- C8 counterexample: after 255 body chunks have been counted the next
accepted body index is 1 — not `(255 + 1) mod 256 = 0` as the claim's
"plus 1 modulo 256" demands — so index 1 is accepted although it deviates
from the claim's prediction; and an index-0 chunk presented mid-stream
(count 5, where the claim admits only index 6) does not fail either: it
is accepted as a session re-initialisation, resetting the signing
counters. `load_memo`'s expected index rolls over the same way (count 256
expects index 1). -/
theorem C8_counterexample :
    sign_expected_chunk 254 = 255
    ∧ sign_expected_chunk 255 = 1
    ∧ (255 + 1) % 256 = 0
    ∧ sign_tx_validate_chunk
        { TxContext.new with chunk_count := 255, preview_approved := true }
        1 [1, 2, 3]
      = .ok { TxContext.new with chunk_count := 256, preview_approved := true }
    ∧ sign_tx_validate_chunk
        { TxContext.new with chunk_count := 5, preview_approved := true }
        0 [0]
      = .ok { TxContext.new with preview_approved := true }
    ∧ memo_expected_chunk 255 = 255
    ∧ memo_expected_chunk 256 = 1 :=
  ⟨rfl, rfl, rfl, rfl, rfl, rfl, rfl⟩

/-- C8 amended: chunk indexing starts at 0.  Index 0 is always accepted:
for SIGN_TX it takes the session re-initialisation branch (requiring an
approved preview; with no memo it returns `Ok` with the signing counters
reset), and for LOAD_MEMO it restarts memo accumulation.  A non-zero
chunk must carry the previous index plus one, except that after index 255
the expected index rolls over to 1 (modulo-255 wrap of the one-byte
header, skipping 0), and any deviating non-zero index fails the handler
with `TxParsingFail` before the chunk's data is accumulated, hashed or
parsed. -/
theorem C8_chunk_sequencing (n : Nat) (ctx : TxContext) (chunk : Nat)
    (more : Bool) (data : List Nat) (ui : Bool)
    (hdev : chunk ≠ sign_expected_chunk ctx.chunk_count)
    (hm0 : chunk ≠ 0)
    (hmdev : chunk ≠ memo_expected_chunk ctx.memo_chunk_count) :
    memo_expected_chunk 0 = 0
    ∧ sign_expected_chunk (n + 1) =
        (if sign_expected_chunk n = 255 then 1 else sign_expected_chunk n + 1)
    ∧ memo_expected_chunk (n + 2) =
        (if memo_expected_chunk (n + 1) = 255 then 1
         else memo_expected_chunk (n + 1) + 1)
    ∧ sign_tx_validate_chunk ctx chunk data = .error .TxParsingFail
    ∧ load_memo ctx chunk more data ui = .error .TxParsingFail
    ∧ (∀ c : TxContext, c.preview_approved = true → c.memo = none →
        sign_tx_validate_chunk c 0 [0]
          = .ok { c with sign_completed := false, sign_succeeded := false,
                         tx_hash := none, total_size := 0, chunk_count := 0,
                         parse_state := .new }) := by
  refine ⟨rfl, ?_, ?_, ?_, ?_, ?_⟩
  · unfold sign_expected_chunk
    have h1 : n % 255 < 255 := Nat.mod_lt n (by norm_num)
    have h2 : (n + 1) % 255 < 255 := Nat.mod_lt (n + 1) (by norm_num)
    rcases Nat.lt_or_ge (n % 255) 254 with hlt | hge
    · have hmod : (n + 1) % 255 = n % 255 + 1 := by omega
      rw [hmod]
      have hne : ¬ (max (min (n % 255 + 1) 255) 1 = 255) := by omega
      rw [if_neg hne]
      omega
    · have h254 : n % 255 = 254 := by omega
      have hmod : (n + 1) % 255 = 0 := by omega
      rw [hmod, h254]
      decide
  · unfold memo_expected_chunk
    have hne1 : ¬ (n + 2 = 0) := by omega
    have hne2 : ¬ (n + 1 = 0) := by omega
    rw [if_neg hne1, if_neg hne2]
    have hs1 : n + 2 - 1 = n + 1 := by omega
    have hs2 : n + 1 - 1 = n := by omega
    rw [hs1, hs2]
    by_cases h : n % 255 + 1 = 255
    · rw [if_pos h]
      omega
    · rw [if_neg h]
      omega
  · unfold sign_tx_validate_chunk
    by_cases hd : data.length = 0
    · rw [if_pos hd]
    · rw [if_neg hd, if_neg hm0, if_pos hdev]
  · unfold load_memo
    rw [if_neg hm0, if_pos hmdev]
  · intro c hp hm
    simp [sign_tx_validate_chunk, hp, hm]

/-! ## Claim C9 -/

/-- C9 counterexample: the preview TLV parser's `read_leb128` **accepts**
a 10-byte encoding (nine continuation bytes followed by a terminator),
returning the value 2^63 — contradicting the claimed cap of 9 bytes for
every LEB128 in the preview parser. -/
theorem C9_counterexample :
    read_leb128 (List.replicate 9 0x80 ++ [1]) 0 = .ok (2 ^ 63, 10)
    ∧ (List.replicate 9 0x80 ++ [1] : List Nat).length = 10 :=
  ⟨rfl, rfl⟩

theorem read_varint_aux_reject (k : Nat) :
    ∀ (data : List Nat) (value shift consumed : Nat),
      9 ≤ consumed + k →
      (∀ b ∈ data.take k, b &&& 0x80 ≠ 0) →
      read_varint_aux data value shift consumed = .error .TxParsingFail := by
  induction k with
  | zero =>
    intro data value shift consumed hc _
    cases data with
    | nil => rfl
    | cons b rest =>
      unfold read_varint_aux
      rw [if_pos (by omega)]
  | succ k ih =>
    intro data value shift consumed hc hcont
    cases data with
    | nil => rfl
    | cons b rest =>
      unfold read_varint_aux
      by_cases h9 : 9 ≤ consumed
      · rw [if_pos h9]
      · rw [if_neg h9]
        have hb : b &&& 0x80 ≠ 0 := by
          apply hcont
          simp [List.take_succ_cons]
        simp only
        rw [if_neg hb]
        exact ih rest _ _ (consumed + 1) (by omega)
          (fun x hx => hcont x (by simp [List.take_succ_cons, hx]))

theorem read_leb128_aux_reject (k : Nat) :
    ∀ (fuel : Nat) (buf : List Nat) (off val shift : Nat),
      64 ≤ shift + 7 * k →
      1 ≤ k →
      (∀ i, i < k → off + i < buf.length → buf.getD (off + i) 0 &&& 0x80 ≠ 0) →
      read_leb128_aux fuel buf off val shift = .error .TxParsingFail := by
  induction k with
  | zero => omega
  | succ k ih =>
    intro fuel buf off val shift hsh _ hcont
    cases fuel with
    | zero => rfl
    | succ fuel =>
      unfold read_leb128_aux
      by_cases hoff : buf.length ≤ off
      · rw [if_pos hoff]
      · rw [if_neg hoff]
        have hb : buf.getD off 0 &&& 0x80 ≠ 0 := by
          have := hcont 0 (by omega) (by omega)
          simpa using this
        simp only
        rw [if_neg hb]
        by_cases hs : 64 ≤ shift + 7
        · rw [if_pos hs]
        · rw [if_neg hs]
          have hk1 : 1 ≤ k := by omega
          exact ih fuel buf (off + 1) _ (shift + 7) (by omega) hk1
            (fun i hik hlen => by
              have := hcont (i + 1) (by omega) (by omega)
              simpa [Nat.add_assoc, Nat.add_comm 1 i] using this)

/-- C9 amended: the two LEB128 readers have different caps.  The
streaming parser's `read_varint` is capped at nine bytes: any buffer
whose first nine bytes all carry the continuation bit is rejected.  The
preview parser's `read_leb128` rejects only once the shift reaches 64,
i.e. after ten continuation bytes, so it accepts encodings of up to ten
bytes (cf. the counterexample) and rejects any run of ten continuation
bytes. -/
theorem C9_leb128_caps (data buf : List Nat) (off : Nat)
    (hv : ∀ b ∈ data.take 9, b &&& 0x80 ≠ 0)
    (hl : ∀ i, i < 10 → off + i < buf.length →
      buf.getD (off + i) 0 &&& 0x80 ≠ 0) :
    read_varint data = .error .TxParsingFail
    ∧ read_leb128 buf off = .error .TxParsingFail :=
  ⟨read_varint_aux_reject 9 data 0 0 0 (by omega) hv,
   read_leb128_aux_reject 10 (buf.length + 1) buf off 0 0 (by omega)
     (by omega) hl⟩

/-! ## Claim C4 -/

/-- C4 counterexample: a failing final `LoadMemo` chunk with status
`TxParsingFail` (a non-success outcome of a session-bearing instruction)
selects `Action::Nothing` — the session context is *not* reset. -/
theorem C4_counterexample :
    reset_after_outcome (.loadMemo 3 false) .TxParsingFail false = false
    ∧ reset_after_outcome (.loadMemo 2 true) .TxParsingFail false = false
    ∧ AppSW.TxParsingFail ≠ AppSW.Ok :=
  ⟨rfl, rfl, by decide⟩

/-- C4 amended: after a non-success outcome the main loop resets the
session for `SendBlinders` and `SignTx` (always), but for `LoadMemo` only
when the final chunk was rejected by the user (`Deny`); every other
`LoadMemo` failure leaves the context untouched.  A reset restores the
freshly-initialised state. -/
theorem C4_reset_on_failure (status : AppSW) (sc : Bool) (chunk : Nat)
    (more : Bool) (ctx : TxContext) (hfail : status ≠ .Ok) :
    reset_after_outcome .sendBlinders status sc = true
    ∧ reset_after_outcome (.signTx chunk more) status sc = true
    ∧ reset_after_outcome (.loadMemo chunk more) status sc
        = (!more && (status == .Deny))
    ∧ TxContext.reset ctx = TxContext.new := by
  refine ⟨?_, ?_, ?_, rfl⟩
  · simp [reset_after_outcome, hfail]
  · cases sc with
    | false => simp [reset_after_outcome, hfail]
    | true => simp [reset_after_outcome]
  · cases more with
    | true => simp [reset_after_outcome]
    | false =>
      cases status <;> first
        | (exfalso; exact hfail rfl)
        | rfl

/-! ## Claim C5 -/

/-- C5 counterexample: `LOAD_MEMO` with chunk index 0 does **not** clear
the previously received blinder vector — a context holding the blinder 5
still holds it after the chunk-0 reset path runs (only the memo buffer,
memo chunk counter, parsed memo and `preview_approved` are cleared). -/
theorem C5_counterexample :
    load_memo { TxContext.new with blinders := [5], preview_approved := true }
        0 true [9] true
      = .ok { TxContext.new with
              blinders := [5], memo_buffer := [9], memo_chunk_count := 1 }
    ∧ ([5] : List Nat) ≠ [] :=
  ⟨rfl, by decide⟩

/-- C5 amended: receiving `LOAD_MEMO` with chunk index 0 clears exactly
the memo buffer, the memo chunk counter, the previously parsed preview
and the `preview_approved` flag, and then accumulates the new data; the
blinder vector, the commitment verifier, the signing flags and every
other session field survive unchanged into the new preview load. -/
theorem C5_chunk0_partial_clear (ctx : TxContext) (data : List Nat)
    (ui : Bool) (hsz : data.length ≤ MAX_MEMO_SIZE) :
    load_memo ctx 0 true data ui
      = .ok { ctx with memo_buffer := data, memo_chunk_count := 1,
                       memo := none, preview_approved := false } := by
  unfold load_memo
  rw [if_pos rfl]
  simp only [memo_expected_chunk]
  rw [if_neg (by simp)]
  have hnot : ¬ (MAX_MEMO_SIZE < ([] : List Nat).length + data.length) := by
    simp
    omega
  simp only [List.length_nil, Nat.zero_add]
  rw [if_neg (by simpa using hnot)]
  simp

/-! ## Concrete evaluation facts used by the C2 witness

(Established while the arithmetic cores are still reducible.) -/

/-- The little-endian Pedersen commitment bytes of amount 1 with blinder 0
(which equal the standard Ristretto base-point encoding). -/
def gBytes : List Nat :=
  [226, 242, 174, 10, 106, 188, 78, 113, 168, 132, 169, 97, 197, 0, 81, 95,
   88, 227, 11, 106, 165, 130, 221, 141, 182, 166, 89, 69, 224, 141, 45, 118]

theorem pedersen_one_zero : pedersen_commit_bytes 1 0 = .ok gBytes := rfl

theorem runVerifies_good :
    runVerifies (CommitmentVerifier.init_verification [0] 1) [(0, gBytes, 1)]
      = .ok ⟨[0], [true], 1⟩ := rfl

theorem session_emits_good :
    session_emits_signature 1 1 [0] 1 [(0, gBytes, 1)] = true := rfl

/-! The double-and-add and modular-exponentiation cores explode when the
elaborator tries to reduce them on symbolic arguments (the fuel is a
literal while the scalar is a variable), so they are opaque-for-unfolding
during the symbolic proofs below and restored afterwards. -/

attribute [irreducible] scalar_mult_aux cxPowmAux

/-! Definitional equations used in place of `unfold` for functions whose
bodies mention the arithmetic cores (each is a one-step delta or a
constructor iota, so the kernel never reduces the cores on symbolic
arguments). -/

theorem verify_pedersen_def (c : List Nat) (amount r : Nat) :
    verify_pedersen_commitment c amount r
      = verify_pedersen_check (pedersen_commit_bytes amount r) c := rfl

theorem verify_pedersen_check_ok (b c : List Nat) :
    verify_pedersen_check (.ok b) c
      = if b ≠ c then .error .InvalidCommitment else .ok () := rfl

theorem verify_output_def (v : CommitmentVerifier) (idx : Nat)
    (c : List Nat) (amount : Nat) :
    v.verify_output idx c amount
      = if v.outputs_verified.length ≤ idx ∨ v.blinders.length ≤ idx then
          .error .TxParsingFail
        else
          CommitmentVerifier.verify_output_result
            (verify_pedersen_commitment c amount (v.blinders.getD idx 0))
            v idx := rfl

theorem verify_output_result_err (e : AppSW) (v : CommitmentVerifier)
    (idx : Nat) :
    CommitmentVerifier.verify_output_result (.error e) v idx = .error e := rfl

/-! ## Claim C2 -/

/-- C2: (1) whenever a TRANSFER/BURN session reaches signature emission,
the verifier — whose flag vector was initialised to `false` for the
declared output count — has every per-output flag true and a verified
count equal to the preview's output count; (2) a commitment mismatch on
any output (the recomputed Pedersen bytes differ from the streamed
commitment) makes `verify_output` fail with `InvalidCommitment` and the
whole signing attempt ends without a signature. -/
theorem C2_signature_requires_all_verified :
    (∀ (blinders : List Nat) (n tx_type outs_len : Nat)
       (events : List (Nat × List Nat × Nat)) (v : CommitmentVerifier),
      tx_type = TX_TRANSFER ∨ tx_type = TX_BURN →
      runVerifies (CommitmentVerifier.init_verification blinders n) events
        = .ok v →
      session_emits_signature tx_type outs_len blinders n events = true →
      v.all_verified = true ∧ v.verified_count = outs_len ∧
        (CommitmentVerifier.init_verification blinders n).outputs_verified
          = List.replicate n false)
    ∧ (∀ (blinders : List Nat) (n tx_type outs_len idx amount : Nat)
         (pre rest : List (Nat × List Nat × Nat))
         (c b : List Nat) (v : CommitmentVerifier),
        runVerifies (CommitmentVerifier.init_verification blinders n) pre
          = .ok v →
        pedersen_commit_bytes amount (v.blinders.getD idx 0) = .ok b →
        b ≠ c →
        idx < v.outputs_verified.length →
        idx < v.blinders.length →
        v.verify_output idx c amount = .error .InvalidCommitment
        ∧ session_emits_signature tx_type outs_len blinders n
            (pre ++ (idx, c, amount) :: rest) = false) := by
  constructor
  · intro blinders n tx_type outs_len events v hty hrun hemit
    have hcond : tx_type = 0 ∨ tx_type = 1 := by
      rcases hty with h | h
      · right
        simpa [TX_TRANSFER] using h
      · left
        simpa [TX_BURN] using h
    have hemit2 : (match sign_final_gate tx_type (some v) outs_len with
        | .error _ => false | .ok _ => true) = true := by
      unfold session_emits_signature at hemit
      rw [hrun] at hemit
      exact hemit
    cases hg : sign_final_gate tx_type (some v) outs_len with
    | error e =>
      rw [hg] at hemit2
      simp at hemit2
    | ok u =>
      unfold sign_final_gate at hg
      rw [if_pos hcond] at hg
      have hg2 : (if ¬ (v.all_verified = true) ∨ v.verified_count ≠ outs_len
          then Except.error AppSW.InvalidCommitment
          else Except.ok ()) = Except.ok u := hg
      by_cases hall : ¬ (v.all_verified = true) ∨ v.verified_count ≠ outs_len
      · rw [if_pos hall] at hg2
        exact absurd hg2 (by simp)
      · push_neg at hall
        exact ⟨hall.1, hall.2, rfl⟩
  · intro blinders n tx_type outs_len idx amount pre rest c b v hrun hped hne
      hlen1 hlen2
    have hvp : verify_pedersen_commitment c amount (v.blinders.getD idx 0)
        = .error .InvalidCommitment := by
      rw [verify_pedersen_def, hped, verify_pedersen_check_ok, if_pos hne]
    have hvo : v.verify_output idx c amount = .error .InvalidCommitment := by
      rw [verify_output_def, if_neg (by omega), hvp, verify_output_result_err]
    refine ⟨hvo, ?_⟩
    unfold session_emits_signature
    rw [runVerifies_append, hrun]
    simp only [runVerifies, hvo]

/-! ## Claim C1 -/

theorem isZeroBytes_iff (l : List Nat) : isZeroBytes l = true ↔ beNat l = 0 :=
  (beNat_eq_zero_iff l).symm

theorem scalar_invert_of_ne (x : List Nat) (h0 : isZeroBytes x = false) :
    scalar_invert x = .ok (cxPowm (beNat x) L_MINUS_2 L) := by
  unfold scalar_invert
  rw [h0]
  rfl

theorem schnorr_finish_iff (sha3 : List Nat → List Nat) (x : List Nat)
    (a_comp : Nat) (m : List Nat) (k : Nat) (r_res : Except AppSW Nat)
    (h0 : isZeroBytes x = false) (sig : Nat × Nat) :
    (schnorr_finish sha3 x a_comp m k r_res = .ok sig ↔
      schnorr_claim_finish sha3 x a_comp m k r_res = some sig) := by
  cases r_res with
  | error e => simp [schnorr_finish, schnorr_claim_finish]
  | ok rc =>
    simp only [schnorr_finish, schnorr_claim_finish, scalar_invert_of_ne x h0,
      xelis_challenge_from_hash, reduce_mod_l_wide_le_to_be, cxModm,
      scalar_add, scalar_multiply, cxAddm, cxMultm, L_MINUS_2]
    rw [Nat.mul_comm]
    simp only [Except.ok.injEq, Option.some.injEq]

/-- C1: `schnorr_sign` computes exactly the XELIS signature of the claim:
for every hash function, private-key buffer, compressed public key and
message, the handler's result agrees with the claim-side specification
`schnorr_sign_claim` (deterministic nonce `wide-reduce(SHA3-512(x ∥ m))`
rejected at 0, `R = k·H`, challenge over the little-endian encodings of
`A` and `R`, `s = k + x⁻¹·e mod ℓ`), and it fails with `TxSignFail` when
the secret is zero. -/
theorem C1_schnorr_sign_matches_claim (sha3 : List Nat → List Nat)
    (x : List Nat) (a_comp : Nat) (m : List Nat) :
    (∀ sig, schnorr_sign sha3 x a_comp m = .ok sig ↔
      schnorr_sign_claim sha3 x a_comp m = some sig)
    ∧ (beNat x = 0 → schnorr_sign sha3 x a_comp m = .error .TxSignFail) := by
  constructor
  · intro sig
    by_cases h0 : isZeroBytes x = true
    · have hv : beNat x = 0 := (isZeroBytes_iff x).mp h0
      simp [schnorr_sign, schnorr_sign_claim, h0, hv]
    · have h0f : isZeroBytes x = false := by
        cases hb : isZeroBytes x with
        | true => exact absurd hb h0
        | false => rfl
      have hv : ¬ (beNat x = 0) := fun h => h0 ((isZeroBytes_iff x).mpr h)
      simp only [schnorr_sign, schnorr_sign_claim, h0f, Bool.false_eq_true,
        if_false, hv, det_nonce_be, reduce_mod_l_wide_le_to_be, cxModm]
      by_cases hk : leNat (sha3 (x ++ m)) % L = 0
      · simp [hk]
      · simp only [hk, if_false]
        exact schnorr_finish_iff sha3 x a_comp m _ _ h0f sig
  · intro hv
    have h0 : isZeroBytes x = true := (isZeroBytes_iff x).mpr hv
    unfold schnorr_sign
    rw [h0]
    rfl

/-! ## Claim C10 -/

theorem and128_eq_zero_iff (b : Nat) (hb : b < 256) :
    (b &&& 0x80 = 0) ↔ b < 128 := by
  have h1 := Nat.and_two_pow b 7
  have h2 : (0x80 : Nat) = 2 ^ 7 := by norm_num
  rw [h2, h1, Nat.testBit_to_div_mod]
  have h7 : (2 : Nat) ^ 7 = 128 := by norm_num
  by_cases h : b / 2 ^ 7 % 2 = 1
  · rw [decide_eq_true h]
    rw [h7] at h
    simp only [Bool.toNat_true, Nat.one_mul]
    constructor
    · intro hc
      norm_num at hc
    · intro hc
      omega
  · rw [decide_eq_false h]
    rw [h7] at h
    simp only [Bool.toNat_false, Nat.zero_mul]
    constructor
    · intro _
      omega
    · intro _
      trivial

/-- Arithmetic core of C10 for a 32-byte buffer split into its
most-significant byte `msb`, thirty middle bytes `mid` (listed from the
byte next to `msb` down to the byte next to `lsb`) and least-significant
byte `lsb`. -/
theorem c10_core (msb lsb : Nat) (mid : List Nat) (hm : mid.length = 30)
    (hmsb : msb < 256) (hlsb : lsb < 256) (hmid : ∀ b ∈ mid, b < 256) :
    ((if msb &&& 0x80 ≠ 0 then false
      else if msb < 0x7f then true
      else !(mid.all (· == 0xff)) || decide (lsb < 0xed)) = true
      ↔ msb * 2 ^ 248 + beNat mid * 256 + lsb < P) := by
  have h240 : (256 : Nat) ^ 30 = 2 ^ 240 := by norm_num
  have hMlt : beNat mid < 2 ^ 240 := by
    have h := beNat_lt mid hmid
    rw [hm, h240] at h
    exact h
  have e1 : (2 : Nat) ^ 255 = 128 * 2 ^ 248 := by norm_num
  have e2 : (2 : Nat) ^ 248 = 256 * 2 ^ 240 := by norm_num
  have e3 : P = 2 ^ 255 - 19 := rfl
  have e5 : (1 : Nat) ≤ 2 ^ 240 := Nat.one_le_two_pow
  by_cases h80 : msb &&& 0x80 ≠ 0
  · rw [if_pos h80]
    have h128 : 128 ≤ msb := by
      rcases Nat.lt_or_ge msb 128 with h | h
      · exact absurd ((and128_eq_zero_iff msb hmsb).mpr h) h80
      · exact h
    simp only [Bool.false_eq_true, false_iff]
    intro hlt
    have hb1 : 128 * 2 ^ 248 ≤ msb * 2 ^ 248 := Nat.mul_le_mul_right _ h128
    omega
  · rw [if_neg h80]
    have h0 : msb &&& 0x80 = 0 := not_not.mp h80
    have h128 : msb < 128 := (and128_eq_zero_iff msb hmsb).mp h0
    by_cases h7f : msb < 0x7f
    · rw [if_pos h7f]
      constructor
      · intro _
        have hb1 : msb * 2 ^ 248 ≤ 126 * 2 ^ 248 :=
          Nat.mul_le_mul_right _ (by omega)
        omega
      · intro _
        rfl
    · rw [if_neg h7f]
      have h127 : msb = 127 := by
        have : ¬ (msb < 127) := by simpa using h7f
        omega
      subst h127
      have hff := all_ff_iff_beNat mid hmid
      rw [hm, h240] at hff
      by_cases hMf : beNat mid = 2 ^ 240 - 1
      · have hall : mid.all (· == 0xff) = true := hff.mpr hMf
        rw [hall]
        simp only [Bool.not_true, Bool.false_or, decide_eq_true_eq]
        omega
      · have hall : mid.all (· == 0xff) = false := by
          cases hb2 : mid.all (· == 0xff) with
          | true => exact absurd (hff.mp hb2) hMf
          | false => rfl
        rw [hall]
        simp only [Bool.not_false, Bool.true_or, true_iff]
        omega

/-- C10: `is_valid_compressed_ristretto` accepts a 32-byte array under
either endianness flag exactly when the 256-bit integer it encodes in the
indicated byte order is strictly below p = 2^255 - 19. -/
theorem C10_is_valid_iff_lt_p (bytes : List Nat) (is_le : Bool)
    (hlen : bytes.length = 32) (hbytes : ∀ b ∈ bytes, b < 256) :
    (is_valid_compressed_ristretto bytes is_le = true ↔
      (if is_le then leNat bytes else beNat bytes) < P) := by
  obtain ⟨a, mid, b, hsplit, hmlen⟩ := exists_msb_mid_lsb bytes hlen
  subst hsplit
  have ha : a < 256 := hbytes a (by simp)
  have hb : b < 256 := hbytes b (by simp)
  have hmid : ∀ y ∈ mid, y < 256 := fun y hy => hbytes y (by simp [hy])
  have hget31 : (a :: (mid ++ [b])).getD 31 0 = b := by
    rw [List.getD_cons_succ]
    have h30 : mid.length ≤ 30 := by omega
    rw [List.getD_eq_getElem?_getD, List.getElem?_append_right h30, hmlen]
    rfl
  have hdrop : ((a :: (mid ++ [b])).drop 1).take 30 = mid := by
    have h1 : (a :: (mid ++ [b])).drop 1 = mid ++ [b] := rfl
    rw [h1, ← hmlen, List.take_left]
  have h248 : (256 : Nat) ^ 31 = 2 ^ 248 := by norm_num
  cases is_le with
  | false =>
    have hval : beNat (a :: (mid ++ [b]))
        = a * 2 ^ 248 + beNat mid * 256 + b := by
      rw [beNat_cons, beNat_append_singleton]
      have hl : (mid ++ [b]).length = 31 := by
        simp [hmlen]
      rw [hl, h248]
      ring
    simp only [is_valid_compressed_ristretto, Bool.false_eq_true, if_false]
    rw [List.cons_append]
    rw [hget31, hdrop, hval]
    have hget0 : (a :: (mid ++ [b])).getD 0 0 = a := rfl
    rw [hget0]
    exact c10_core a b mid hmlen ha hb hmid
  | true =>
    have hrevfull : (a :: (mid ++ [b])).reverse = b :: (mid.reverse ++ [a]) := by
      simp
    have hval : leNat (a :: (mid ++ [b]))
        = b * 2 ^ 248 + beNat mid.reverse * 256 + a := by
      unfold leNat
      rw [hrevfull, beNat_cons, beNat_append_singleton]
      have hl : (mid.reverse ++ [a]).length = 31 := by
        simp [hmlen]
      rw [hl, h248]
      ring
    have hrevall : mid.reverse.all (· == 0xff) = mid.all (· == 0xff) :=
      List.all_reverse
    have hrevlen : mid.reverse.length = 30 := by
      simp [hmlen]
    have hrevmem : ∀ y ∈ mid.reverse, y < 256 := fun y hy =>
      hmid y (List.mem_reverse.mp hy)
    simp only [is_valid_compressed_ristretto, if_true]
    rw [List.cons_append]
    rw [hget31, hdrop, hval]
    have hget0 : (a :: (mid ++ [b])).getD 0 0 = a := rfl
    rw [hget0]
    have := c10_core b a mid.reverse hrevlen hb ha hrevmem
    rw [hrevall] at this
    exact this

/-! ## Witnesses -/

/-- Witness for C1 at the all-zero secret. -/
theorem C1_witness :
    schnorr_sign (fun _ => List.replicate 64 0) (List.replicate 32 0) 0 []
      = .error .TxSignFail :=
  (C1_schnorr_sign_matches_claim (fun _ => List.replicate 64 0)
    (List.replicate 32 0) 0 []).2 (by rfl)

/-- Witness for C2: a one-output transfer session with blinder 0 and
amount 1 (matching commitment `gBytes`), plus a mismatching commitment. -/
theorem C2_witness :
    ((⟨[0], [true], 1⟩ : CommitmentVerifier).all_verified = true
      ∧ (⟨[0], [true], 1⟩ : CommitmentVerifier).verified_count = 1
      ∧ (CommitmentVerifier.init_verification [0] 1).outputs_verified
          = List.replicate 1 false)
    ∧ ((CommitmentVerifier.init_verification [0] 1).verify_output 0
          (List.replicate 32 0) 1 = .error .InvalidCommitment
      ∧ session_emits_signature 1 1 [0] 1
          ([] ++ (0, List.replicate 32 0, 1) :: []) = false) :=
  ⟨C2_signature_requires_all_verified.1 [0] 1 1 1 [(0, gBytes, 1)]
      ⟨[0], [true], 1⟩ (Or.inl rfl) runVerifies_good session_emits_good,
   C2_signature_requires_all_verified.2 [0] 1 1 1 0 1 [] []
      (List.replicate 32 0) gBytes (CommitmentVerifier.init_verification [0] 1)
      rfl pedersen_one_zero (by decide) (by decide) (by decide)⟩

/-- Witness for C4 at outcome `TxWrongLength`. -/
theorem C4_witness :
    reset_after_outcome .sendBlinders .TxWrongLength false = true
    ∧ reset_after_outcome (.signTx 3 false) .TxWrongLength false = true
    ∧ reset_after_outcome (.loadMemo 3 false) .TxWrongLength false
        = (!false && (AppSW.TxWrongLength == .Deny))
    ∧ TxContext.reset TxContext.new = TxContext.new := by
  have h := C4_reset_on_failure .TxWrongLength false 3 false TxContext.new
    (by decide)
  exact ⟨h.1, h.2.1, h.2.2.1, h.2.2.2⟩

/-- Witness for C5 with a one-byte chunk. -/
theorem C5_witness :
    load_memo TxContext.new 0 true [1] true
      = .ok { TxContext.new with memo_buffer := [1], memo_chunk_count := 1,
                                 memo := none, preview_approved := false } :=
  C5_chunk0_partial_clear TxContext.new [1] true (by decide)

/-- Witness for C6: a 40-byte burn payload whose big-endian amount 1
matches the preview's burn amount. -/
theorem C6_witness :
    parse_burn TxStreamParser.new
        ((List.replicate 32 0 ++ [0, 0, 0, 0, 0, 0, 0, 1]) ++ [])
        (some ⟨0, 1⟩)
      = .ok ({ TxStreamParser.new with burn_parsed := true }, 40) := by
  have h := (C6_burn_amount_is_big_endian
    (List.replicate 32 0 ++ [0, 0, 0, 0, 0, 0, 0, 1]) [] [7]
    TxStreamParser.new (some ⟨0, 1⟩) (by decide) rfl (by decide)).1
  rw [h]
  rfl

/-- Witness for C7: version-0 tail length and a pending-skip call. -/
theorem C7_witness :
    transfer_tail_len_after_commit 0 = 32 + 32 + 128
    ∧ extract_commitment_from_transfer
        { TxStreamParser.new with pending_tail_skip := 5 } [1, 2, 3]
      = .ok (none, 3, { TxStreamParser.new with pending_tail_skip := 2 }) := by
  have h := C7_tail_skip 0 { TxStreamParser.new with partial_type := .commitment }
    (List.replicate 40 7) rfl rfl rfl (by decide) (by decide)
    { TxStreamParser.new with pending_tail_skip := 5 } [1, 2, 3] (by decide)
  constructor
  · rw [h.1]
    decide
  · rw [h.2.2]
    rfl

/-- Witness for C8: chunk index 7 presented to a fresh session. -/
theorem C8_witness :
    sign_tx_validate_chunk TxContext.new 7 [1] = .error .TxParsingFail
    ∧ load_memo TxContext.new 7 false [1] false = .error .TxParsingFail := by
  have h := C8_chunk_sequencing 0 TxContext.new 7 false [1] false
    (by decide) (by decide) (by decide)
  exact ⟨h.2.2.2.1, h.2.2.2.2.1⟩

/-- Witness for C9: nine continuation bytes for `read_varint`, a
twelve-byte all-continuation buffer for `read_leb128`. -/
theorem C9_witness :
    read_varint (List.replicate 9 0x80) = .error .TxParsingFail
    ∧ read_leb128 (List.replicate 12 0x80) 0 = .error .TxParsingFail :=
  C9_leb128_caps (List.replicate 9 0x80) (List.replicate 12 0x80) 0
    (by decide) (by intro i hi hlt; interval_cases i <;> decide)

/-- Witness for C10 at the all-zero array (big-endian flag). -/
theorem C10_witness :
    (is_valid_compressed_ristretto (List.replicate 32 0) false = true ↔
      beNat (List.replicate 32 0) < P) :=
  C10_is_valid_iff_lt_p (List.replicate 32 0) false (by decide) (by decide)

end LedgerXelis
